import Mathlib

/-!
Shallow embedding of the oathstone-js client (src/index.js) and a
verification of the specification's claims about it.

The JavaScript source keeps its configuration, providers and contracts in
plain objects; here those are association lists from string keys, with
first-match lookup and replace-or-append assignment, matching JS property
access and property assignment.  Absent (`undefined`) string fields are
`Option String`, and JS truthiness on such a field (`undefined`, `null`
and the empty string are falsy) is the `truthy` predicate below.  The
external ethers collaborator (RPC transport, contract calls, transaction
submission) is modelled by an explicit oracle record, and every RPC call a
balance read issues is recorded in a trace so that claims about which
calls are made are statable.
-/

namespace Oathstone

/-- JS truthiness of an optional string field: `undefined` / `null` and the
empty string are falsy, every other string is truthy. -/
def truthy : Option String → Bool
  | none => false
  | some s => s ≠ ""

/-- JS `a || b` on two optional string fields: yields `a` when `a` is truthy,
otherwise `b`. -/
def jsOr (a b : Option String) : Option String :=
  if truthy a then a else b

/-- JS property read on an object modelled as an association list:
first-match lookup. -/
def lookupA {α : Type} : List (String × α) → String → Option α
  | [], _ => none
  | (k, v) :: rest, j => if k = j then some v else lookupA rest j

/-- JS property assignment on an object modelled as an association list:
replace the value at the key when it is present (keys are unique, since JS
objects cannot repeat a key), append otherwise. -/
def setA {α : Type} : List (String × α) → String → α → List (String × α)
  | [], k, v => [(k, v)]
  | (a, b) :: rest, k, v =>
    if a = k then (k, v) :: rest else (a, b) :: setA rest k v

/-- Errors the client throws.  The source throws plain `Error` values; the
spec's taxonomy maps onto them as: `ConfigError` = `configError`,
`NotConnectedError` = `notConnected`, `NotFoundError` = `notFound`,
`InvalidAmountError` = `invalidAmount`. -/
inductive ClientError where
  | configError (msg : String)
  | notConnected (network : String)
  | notFound (token network : String)
  | invalidAmount (amount : String)
deriving DecidableEq

/-- The human-readable message of each error, as the source builds it. -/
def ClientError.message : ClientError → String
  | .configError msg => msg
  | .notConnected network => ("Provider not initialized for ") ++ network
  | .notFound token network => ("Contract not found for ") ++ token ++ (" on ") ++ network
  | .invalidAmount amount => ("invalid amount: ") ++ amount

/-- The `rpcUrl: \x7b testnet?, mainnet? \x7d` object of a network's
configuration. -/
structure RpcUrls where
  testnet : Option String
  mainnet : Option String
deriving DecidableEq

/-- A single entry of an ABI array.  Only the shape the source's built-in
ABI uses is modelled: the function name, the `constant` flag and the state
mutability. -/
structure AbiEntry where
  name : String
  constant : Bool
  stateMutability : String
deriving DecidableEq

/-- The value of a token configuration's `abi` field as JS sees it: either a
real array of entries or some other (non-array) value. -/
inductive AbiVal where
  | arr (entries : List AbiEntry)
  | nonArray
deriving DecidableEq

/-- The value of a token configuration's `decimals` field as JS sees it:
either a number or some other value (`typeof ... === "number"` is the test
the source applies). -/
inductive ConfigDecimals where
  | num (n : Nat)
  | nonNumber
deriving DecidableEq

/-- A token's configuration (`config.networks[n].tokens[t]`). -/
structure TokenConfig where
  contractAddress : Option String
  address : Option String
  abi : Option AbiVal
  decimals : Option ConfigDecimals
deriving DecidableEq

/-- A network's configuration (`config.networks[n]`).  `rpcUrl` is optional
because the source only checks its presence during validation. -/
structure NetworkConfig where
  environment : Int
  rpcUrl : Option RpcUrls
  tokens : Option (List (String × TokenConfig))
deriving DecidableEq

/-- The raw configuration the caller passes to the constructor; `networks`
may be absent (the constructor checks `!config.networks`), and an
individual network entry may be `null` (the validator checks `!net`). -/
structure RawConfig where
  networks : Option (List (String × Option NetworkConfig))
deriving DecidableEq

/-- Normalization of one token (src/index.js lines 52-53): the canonical
`contractAddress` becomes `tk.contractAddress || tk.address`. -/
def normalizeToken (tk : TokenConfig) : TokenConfig :=
  { tk with contractAddress := jsOr tk.contractAddress tk.address }

/-- `OathstoneClient.validateConfig` (src/index.js lines 43-58) restricted
to the `networks` object: walks the networks in order, throws on a `null`
network or a missing `rpcUrl` field, and rewrites every token through
`normalizeToken`. -/
def validateConfig : List (String × Option NetworkConfig) →
    Except ClientError (List (String × NetworkConfig))
  | [] => .ok []
  | (n, onet) :: rest =>
    match onet with
    | none => .error (.configError (("Network ") ++ n ++ (" missing rpcUrl")))
    | some net =>
      match net.rpcUrl with
      | none => .error (.configError (("Network ") ++ n ++ (" missing rpcUrl")))
      | some _ =>
        match validateConfig rest with
        | .error e => .error e
        | .ok tail =>
          .ok ((n, { net with
            tokens := some (((net.tokens).getD []).map
              (fun p => (p.1, normalizeToken p.2))) }) :: tail)

/-- The `OathstoneClient` constructor's validation (src/index.js lines
25-32): rejects an absent config or an absent `networks` field, then runs
`validateConfig`. -/
def normalize (config : Option RawConfig) : Except ClientError (List (String × NetworkConfig)) :=
  match config with
  | none => .error (.configError ("Invalid config: expected \x7b networks: \x7b...\x7d \x7d"))
  | some c =>
    match c.networks with
    | none => .error (.configError ("Invalid config: expected \x7b networks: \x7b...\x7d \x7d"))
    | some nets => validateConfig nets

/-- `OathstoneClient.resolveRpcUrl` (src/index.js lines 61-69): select the
testnet endpoint when `environment` equals 0, else the mainnet endpoint;
throw when the selected field is absent or the empty string. -/
def resolveRpcUrl (networkConfig : NetworkConfig) : Except ClientError String :=
  let isTestnet : Bool := networkConfig.environment = 0
  let rpcUrl : Option String :=
    (networkConfig.rpcUrl).bind (fun u => if isTestnet then u.testnet else u.mainnet)
  match rpcUrl with
  | none => .error (.configError ("Missing rpcUrl for network (check testnet/mainnet keys)"))
  | some s =>
    if s = "" then
      .error (.configError ("Missing rpcUrl for network (check testnet/mainnet keys)"))
    else
      .ok s

/-- The endpoint the spec's selection rule picks: the `testnet` field iff
`environment == 0`, else the `mainnet` field (stated from the spec's words,
to be compared with `resolveRpcUrl`). -/
def specSelectedEndpoint (networkConfig : NetworkConfig) : Option String :=
  if networkConfig.environment = 0 then
    (networkConfig.rpcUrl).bind RpcUrls.testnet
  else
    (networkConfig.rpcUrl).bind RpcUrls.mainnet

/-- Whether an `Except` result is a success (used to state hypotheses
decidably). -/
def exceptIsOk : Except ClientError String → Bool
  | .ok _ => true
  | .error _ => false

/-- The source's built-in minimal ERC-20 ABI (src/index.js lines 72-80). -/
def ERC20_ABI : List AbiEntry :=
  [ { name := ("balanceOf"), constant := true, stateMutability := ("view") },
    { name := ("transfer"), constant := false, stateMutability := ("nonpayable") },
    { name := ("decimals"), constant := true, stateMutability := ("view") },
    { name := ("symbol"), constant := true, stateMutability := ("view") },
    { name := ("name"), constant := true, stateMutability := ("view") } ]

/-- A contract binding (`new ethers.Contract(address, abi, provider)`):
the token's on-chain address, the chosen ABI and the provider it was bound
to (a provider is identified by its RPC URL). -/
structure Contract where
  address : String
  abi : List AbiEntry
  provider : Option String
deriving DecidableEq

/-- The ABI chosen for a token (src/index.js lines 100-102): the token's
`abi` when it is present and an array, else the built-in ERC-20 ABI. -/
def chooseAbi : Option AbiVal → List AbiEntry
  | some (.arr entries) => entries
  | _ => ERC20_ABI

/-- The mutable state of an `OathstoneClient` instance: the validated
config and the two registry maps (`this.providers`, `this.contracts`). -/
structure ClientState where
  config : List (String × NetworkConfig)
  providers : List (String × String)
  contracts : List (String × List (String × Contract))
deriving DecidableEq

/-- Constructing a client (`new OathstoneClient(config)`): validate the
config and start with empty registries. -/
def mkClient (config : Option RawConfig) : Except ClientError ClientState :=
  (normalize config).map (fun nets => { config := nets, providers := [], contracts := [] })

/-- The chain-facing collaborator (ethers): what each remote call would
answer, supplied as an explicit oracle so the client's control flow is a
pure function of it. -/
structure RpcOracle where
  getBalance : String → String → Nat
  balanceOf : String → String → Nat
  decimalsResult : String → Except Unit Nat
  submitHash : String
  submitStatus : Int

/-- An RPC call a balance read issues, recorded in a trace. -/
inductive RpcCall where
  | getBalance (rpcUrl address : String)
  | balanceOf (contractAddress address : String)
  | decimalsCall (contractAddress : String)
deriving DecidableEq

/-- `OathstoneClient.connectNetworks` (src/index.js lines 82-88) as a fold
over the configured networks: resolve each endpoint in order and store a
provider under the network's name; stop at the first endpoint that fails
to resolve, keeping the providers already stored. -/
def connectNetworksAux : List (String × NetworkConfig) → List (String × String) →
    List (String × String) × Option ClientError
  | [], provs => (provs, none)
  | (n, net) :: rest, provs =>
    match resolveRpcUrl net with
    | .error e => (provs, some e)
    | .ok url => connectNetworksAux rest (setA provs n url)

/-- `OathstoneClient.connectNetworks`: the new state (assignments to
`this.providers` survive a thrown error) and the call's outcome. -/
def connectNetworks (st : ClientState) : ClientState × Except ClientError Bool :=
  match connectNetworksAux st.config st.providers with
  | (provs, some e) => ({ st with providers := provs }, .error e)
  | (provs, none) => ({ st with providers := provs }, .ok true)

/-- The inner token loop of `loadContracts` (src/index.js lines 97-108) for
one network: recompute each token's address as
`contractAddress || address`, skip the token when that is falsy, else
store a binding built from the chosen ABI and the network's provider. -/
def buildNetContracts (provs : List (String × String)) (networkName : String) :
    List (String × TokenConfig) → List (String × Contract) → List (String × Contract)
  | [], acc => acc
  | (t, tk) :: rest, acc =>
    match jsOr tk.contractAddress tk.address with
    | none => buildNetContracts provs networkName rest acc
    | some a =>
      if a = "" then
        buildNetContracts provs networkName rest acc
      else
        buildNetContracts provs networkName rest
          (setA acc t { address := a, abi := chooseAbi tk.abi,
                        provider := lookupA provs networkName })

/-- The outer network loop of `loadContracts` (src/index.js lines 94-109):
for each network, start from the existing `this.contracts[networkName]`
object (or a fresh one) and run the token loop. -/
def buildContracts (provs : List (String × String)) :
    List (String × NetworkConfig) → List (String × List (String × Contract)) →
    List (String × List (String × Contract))
  | [], cmap => cmap
  | (n, net) :: rest, cmap =>
    buildContracts provs rest
      (setA cmap n (buildNetContracts provs n ((net.tokens).getD []) ((lookupA cmap n).getD [])))

/-- `OathstoneClient.loadContracts` (src/index.js lines 90-111): connect
first when no providers exist yet (propagating a connection failure),
then build all bindings and return `true`. -/
def loadContracts (st : ClientState) : ClientState × Except ClientError Bool :=
  if st.providers.isEmpty then
    match connectNetworks st with
    | (st2, .error e) => (st2, .error e)
    | (st2, .ok _) =>
      ({ st2 with contracts := buildContracts st2.providers st2.config st2.contracts }, .ok true)
  else
    ({ st with contracts := buildContracts st.providers st.config st.contracts }, .ok true)

/-- `OathstoneClient.getProvider` (src/index.js lines 113-115). -/
def getProvider (st : ClientState) (network : String) : Option String :=
  lookupA st.providers network

/-- `OathstoneClient.getContract` (src/index.js lines 117-119):
`this.contracts[network]?.[tokenName]`. -/
def getContract (st : ClientState) (network tokenName : String) : Option Contract :=
  (lookupA st.contracts network).bind (fun m => lookupA m tokenName)

/-- The numeric value of a most-significant-first list of decimal digits. -/
def digitsVal (l : List Nat) : Nat :=
  l.foldl (fun a d => a * 10 + d) 0

/-- The last `d` decimal digits of `r`, most significant first (exactly the
`d`-digit fixed-point fractional representation when `r < 10 ^ d`). -/
def fracDigits : Nat → Nat → List Nat
  | _, 0 => []
  | r, d + 1 => fracDigits (r / 10) d ++ [r % 10]

/-- Remove the trailing zero digits of a digit list. -/
def trimTrailingZeros : List Nat → List Nat
  | [] => []
  | a :: as =>
    match trimTrailingZeros as with
    | [] => if a = 0 then [] else [a]
    | b :: bs => a :: b :: bs

/-- The fractional digits a formatted balance displays: the `d`-digit
representation of `r` with trailing zeros removed, keeping at least one
digit. -/
def displayFracDigits (r d : Nat) : List Nat :=
  match trimTrailingZeros (fracDigits r d) with
  | [] => [0]
  | l => l

/-- The character of one decimal digit. -/
def digitChar (d : Nat) : Char :=
  Char.ofNat (48 + d)

/-- Modelled from the spec: `ethers.formatUnits` / `ethers.formatEther`
(the formatting collaborator invoked by src/index.js lines 136 and 147) is
not part of this repository; the spec requires exact fixed-point decimal
conversion of a raw smallest-unit integer at a given decimal count, with
no floating-point arithmetic.  Renders `raw / 10 ^ decimals`, a dot, and
the fractional digits with trailing zeros trimmed (at least one digit). -/
def formatUnits (raw decimals : Nat) : String :=
  Nat.repr (raw / 10 ^ decimals) ++ (".")
    ++ String.mk ((displayFracDigits (raw % 10 ^ decimals) decimals).map digitChar)

/-- The numeric value of a most-significant-first list of digit characters. -/
def natOfDigitChars (l : List Char) : Nat :=
  l.foldl (fun a c => a * 10 + (c.toNat - 48)) 0

/-- Remove the trailing `0` characters of a fractional part. -/
def trimTrailingZeroChars (l : List Char) : List Char :=
  (l.reverse.dropWhile (fun c => c = ('0'))).reverse

/-- Modelled from the spec: `ethers.parseUnits` / `ethers.parseEther` (the
conversion collaborator invoked by src/index.js lines 157 and 183) is not
part of this repository; the spec requires arbitrary-precision
decimal-to-integer scaling by `10 ^ decimals`, rejecting with
`InvalidAmountError` any amount whose scaled value is not an exact
integer.  Accepts a nonnegative decimal numeral with an optional
fractional part; after trimming trailing zeros, a fractional part longer
than `decimals` digits would need fractional smallest units and is
rejected. -/
def parseUnits (amount : String) (decimals : Nat) : Except ClientError Nat :=
  match amount.toList.splitOn ('.') with
  | [w] =>
    if w ≠ [] ∧ w.all Char.isDigit then
      .ok (natOfDigitChars w * 10 ^ decimals)
    else
      .error (.invalidAmount amount)
  | [w, f] =>
    if w ≠ [] ∧ f ≠ [] ∧ w.all Char.isDigit ∧ f.all Char.isDigit then
      let ft := trimTrailingZeroChars f
      if ft.length ≤ decimals then
        .ok (natOfDigitChars w * 10 ^ decimals + natOfDigitChars ft * 10 ^ (decimals - ft.length))
      else
        .error (.invalidAmount amount)
    else
      .error (.invalidAmount amount)
  | _ => .error (.invalidAmount amount)

/-- `OathstoneClient.getNativeBalance` (src/index.js lines 132-137): the
trace of RPC calls issued and the outcome.  Throws before any RPC call
when no provider exists for the network; otherwise reads the raw balance
and formats it at 18 decimals. -/
def getNativeBalance (st : ClientState) (oracle : RpcOracle) (network address : String) :
    List RpcCall × Except ClientError String :=
  match getProvider st network with
  | none => ([], .error (.notConnected network))
  | some rpc =>
    ([RpcCall.getBalance rpc address],
     .ok (formatUnits (oracle.getBalance rpc address) 18))

/-- `OathstoneClient.getTokenBalance` (src/index.js lines 140-148): the
trace of RPC calls issued and the outcome.  Throws before any RPC call
when no binding exists for the pair; otherwise issues the balance read and
the decimals read (the decimals read falls back to 18 when it fails) and
formats the raw balance. -/
def getTokenBalance (st : ClientState) (oracle : RpcOracle)
    (network tokenName address : String) :
    List RpcCall × Except ClientError String :=
  match getContract st network tokenName with
  | none => ([], .error (.notFound tokenName network))
  | some c =>
    let decimals : Nat :=
      match oracle.decimalsResult c.address with
      | .ok d => d
      | .error _ => 18
    ([RpcCall.balanceOf c.address address, RpcCall.decimalsCall c.address],
     .ok (formatUnits (oracle.balanceOf c.address address) decimals))

/-- The transfer result shape (`\x7b network, token?, hash, status \x7d`).  The
submitted smallest-unit value is paired with it so the conversion the
source performs stays observable (submission itself is the oracle's). -/
structure TxResult where
  network : String
  token : Option String
  hash : String
  status : Int
deriving DecidableEq

/-- `OathstoneClient.transferNative` (src/index.js lines 151-165): throws
when no provider exists, else converts the amount at 18 decimals
(`ethers.parseEther`) and submits; the pair carries the submitted
smallest-unit value and the result. -/
def transferNative (st : ClientState) (oracle : RpcOracle)
    (network fromPrivateKey toAddress amount : String) :
    Except ClientError (Nat × TxResult) :=
  match getProvider st network with
  | none => .error (.notConnected network)
  | some _ =>
    match parseUnits amount 18 with
    | .error e => .error e
    | .ok value =>
      .ok (value, { network := network, token := none,
                    hash := oracle.submitHash, status := oracle.submitStatus })

/-- The `decimals` field of `config.networks?.[network]?.tokens?.[tokenName]`
(src/index.js lines 175-176). -/
def configTokenDecimals (st : ClientState) (network tokenName : String) :
    Option ConfigDecimals :=
  ((lookupA st.config network).bind
    (fun net => lookupA ((net.tokens).getD []) tokenName)).bind TokenConfig.decimals

/-- The decimal count `transferToken` uses (src/index.js lines 174-179):
the configured override when it is a number, else the on-chain
`decimals()` result, else 18 when that call fails. -/
def transferTokenDecimals (st : ClientState) (oracle : RpcOracle)
    (network tokenName contractAddress : String) : Nat :=
  match configTokenDecimals st network tokenName with
  | some (ConfigDecimals.num n) => n
  | _ =>
    match oracle.decimalsResult contractAddress with
    | .ok d => d
    | .error _ => 18

/-- `OathstoneClient.transferToken` (src/index.js lines 168-194): throws
when no provider or no binding exists, resolves the decimal count,
converts the amount and submits; the pair carries the submitted
smallest-unit value and the result. -/
def transferToken (st : ClientState) (oracle : RpcOracle)
    (network tokenName fromPrivateKey toAddress amount : String) :
    Except ClientError (Nat × TxResult) :=
  match getProvider st network with
  | none => .error (.notConnected network)
  | some _ =>
    match getContract st network tokenName with
    | none => .error (.notFound tokenName network)
    | some c =>
      match parseUnits amount (transferTokenDecimals st oracle network tokenName c.address) with
      | .error e => .error e
      | .ok value =>
        .ok (value, { network := network, token := some tokenName,
                      hash := oracle.submitHash, status := oracle.submitStatus })

/-- An oracle with fixed answers, for concrete scenarios: the decimals read
answers 18 successfully. -/
def oracle0 : RpcOracle where
  getBalance := fun _ _ => 0
  balanceOf := fun _ _ => 0
  decimalsResult := fun _ => .ok 18
  submitHash := ("0xhash")
  submitStatus := 1

/-- The end-to-end scenario's raw config: one network (environment 0, a
testnet endpoint) and one token with an explicit `decimals: 18` override. -/
def c1RawConfig : RawConfig where
  networks := some
    [(("celo"), some
      { environment := 0,
        rpcUrl := some { testnet := some ("https://t"), mainnet := none },
        tokens := some
          [(("USD"),
            { contractAddress := some ("0xA"), address := none,
              abi := none, decimals := some (ConfigDecimals.num 18) })] })]

/-- The end-to-end scenario's client state after construction,
`connectNetworks()` and `loadContracts()` (an empty state stands in when a
step failed; the theorems check the steps succeeded). -/
def c1State : ClientState :=
  match mkClient (some c1RawConfig) with
  | .error _ => { config := [], providers := [], contracts := [] }
  | .ok st0 =>
    match connectNetworks st0 with
    | (_, .error _) => { config := [], providers := [], contracts := [] }
    | (st1, .ok _) => (loadContracts st1).1

/-- Whether every step of the end-to-end scenario succeeded. -/
def c1PipelineOk : Bool :=
  match mkClient (some c1RawConfig) with
  | .error _ => false
  | .ok st0 =>
    match connectNetworks st0 with
    | (_, .error _) => false
    | (st1, .ok _) =>
      match loadContracts st1 with
      | (_, .ok _) => true
      | (_, .error _) => false

/-- The trace of RPC calls the end-to-end scenario's `getTokenBalance`
issues. -/
def c1Trace : List RpcCall :=
  (getTokenBalance c1State oracle0 ("celo") ("USD") ("0xme")).1

/-- A token with neither an `address` nor a `contractAddress`. -/
def c4Token : TokenConfig where
  contractAddress := none
  address := none
  abi := none
  decimals := none

/-- A network whose `rpcUrl` object is present but has neither endpoint
field. -/
def c4Net : NetworkConfig where
  environment := 1
  rpcUrl := some { testnet := none, mainnet := none }
  tokens := some [(("tok"), c4Token)]

/-- A raw config that refutes the claimed normalization failure
conditions: its single network carries an `rpcUrl` object with neither
endpoint field, and its single token has neither an `address` nor a
`contractAddress`. -/
def c4RawConfig : RawConfig where
  networks := some [(("net1"), some c4Net)]

/-- Whether a raw network entry passes the validator's check: the entry is
non-null and has an `rpcUrl` field (this is all `validateConfig` checks
per network). -/
def rawNetOk : Option NetworkConfig → Bool
  | none => false
  | some net => (net.rpcUrl).isSome

/-- Whether an `Except ClientError` normalization result is a success. -/
def normIsOk {α : Type} : Except ClientError α → Bool
  | .ok _ => true
  | .error _ => false

/-- Whether a token configuration's `decimals` field is an explicit
numeric override (`typeof decimalsFromConfig === "number"`). -/
def isNumberOverride : Option ConfigDecimals → Bool
  | some (ConfigDecimals.num _) => true
  | _ => false

/-- A freshly constructed client with nothing configured, connected or
loaded. -/
def emptyState : ClientState where
  config := []
  providers := []
  contracts := []

/-- A token whose canonical address is unresolvable (skipped by
`loadContracts`). -/
def tkBad : TokenConfig where
  contractAddress := none
  address := none
  abi := none
  decimals := none

/-- A network holding only the unresolvable token `tkBad`. -/
def netSkip : NetworkConfig where
  environment := 0
  rpcUrl := some { testnet := some ("https://t"), mainnet := none }
  tokens := some [(("BAD"), tkBad)]

/-- A connected client whose one network holds only the unresolvable token
`tkBad`. -/
def stSkip : ClientState where
  config := [(("celo"), netSkip)]
  providers := [(("celo"), ("https://t"))]
  contracts := []

/-- A network whose endpoint resolves (testnet set, environment 0). -/
def netGood : NetworkConfig where
  environment := 0
  rpcUrl := some { testnet := some ("https://good"), mainnet := none }
  tokens := none

/-- A network whose endpoint resolution fails: environment 0 but no
testnet field. -/
def netBad : NetworkConfig where
  environment := 0
  rpcUrl := some { testnet := none, mainnet := some ("https://m") }
  tokens := none

/-- A client configured with a resolvable network followed by an
unresolvable one, before any connection attempt. -/
def stPartial : ClientState where
  config := [(("good"), netGood), (("bad"), netBad)]
  providers := []
  contracts := []

theorem lookupA_setA_self {α : Type} (m : List (String × α)) (k : String) (v : α) :
    lookupA (setA m k v) k = some v := by
  induction m with
  | nil => simp [setA, lookupA]
  | cons p rest ih =>
    obtain ⟨a, b⟩ := p
    by_cases h : a = k
    · simp [setA, lookupA, h]
    · simp [setA, lookupA, h, ih]

theorem lookupA_setA_ne {α : Type} (m : List (String × α)) (k j : String) (v : α)
    (h : j ≠ k) : lookupA (setA m k v) j = lookupA m j := by
  induction m with
  | nil =>
    have hk : ¬ (k = j) := fun hh => h (hh ▸ rfl)
    simp [setA, lookupA, hk]
  | cons p rest ih =>
    obtain ⟨a, b⟩ := p
    by_cases ha : a = k
    · subst ha
      have hk : ¬ (a = j) := fun hh => h (hh ▸ rfl)
      simp [setA, lookupA, hk]
    · simp [setA, lookupA, ha, ih]

theorem lookupA_setA_isSome {α : Type} (m : List (String × α)) (k j : String) (v : α)
    (h : (lookupA m j).isSome = true) : (lookupA (setA m k v) j).isSome = true := by
  by_cases hj : j = k
  · subst hj; rw [lookupA_setA_self]; rfl
  · rw [lookupA_setA_ne _ _ _ _ hj]; exact h

theorem lookupA_mem {α : Type} (m : List (String × α)) (k : String) (v : α)
    (h : lookupA m k = some v) : (k, v) ∈ m := by
  induction m with
  | nil => simp [lookupA] at h
  | cons p rest ih =>
    obtain ⟨a, b⟩ := p
    by_cases ha : a = k
    · subst ha
      simp [lookupA] at h
      subst h
      exact List.mem_cons_self _ _
    · simp [lookupA, ha] at h
      exact List.mem_cons_of_mem _ (ih h)

theorem lookupA_eq_none_of_not_mem {α : Type} :
    ∀ (m : List (String × α)) (k : String), k ∉ m.map Prod.fst → lookupA m k = none
  | [], _, _ => rfl
  | (a, _) :: rest, k, h => by
    have ha : ¬ (a = k) := fun hh => h (by simp [hh])
    have hr : k ∉ rest.map Prod.fst := fun hh => h (by simp [hh])
    simp [lookupA, ha, lookupA_eq_none_of_not_mem rest k hr]

/-- Claim C2: for every network configuration, `resolveRpcUrl` returns the
testnet endpoint iff `environment == 0` and otherwise the mainnet endpoint
(stated through the spec-side selection rule `specSelectedEndpoint`), and
it fails exactly when the selected endpoint field is absent or empty — in
particular, it never falls back to the other endpoint. -/
theorem resolveRpcUrl_spec (net : NetworkConfig) :
    (∀ s : String, resolveRpcUrl net = .ok s ↔ (specSelectedEndpoint net = some s ∧ s ≠ (""))) ∧
    (exceptIsOk (resolveRpcUrl net) = false ↔
      (specSelectedEndpoint net = none ∨ specSelectedEndpoint net = some (""))) := by
  unfold resolveRpcUrl specSelectedEndpoint exceptIsOk
  by_cases he : net.environment = 0
  · cases hr : net.rpcUrl with
    | none => simp [he, hr]
    | some u =>
      cases ht : u.testnet with
      | none => simp [he, hr, ht]
      | some s0 =>
        by_cases hs : s0 = ("") <;> simp [he, hr, ht, hs]
  · cases hr : net.rpcUrl with
    | none => simp [he, hr]
    | some u =>
      cases ht : u.mainnet with
      | none => simp [he, hr, ht]
      | some s0 =>
        by_cases hs : s0 = ("") <;> simp [he, hr, ht, hs]

/-- Claim C3: a token configuration supplying either field (not both
absent or empty) normalizes to a truthy canonical `contractAddress` equal
to the supplied field, with `contractAddress` taking precedence when both
are supplied. -/
theorem validateConfig_canonical_address (tk : TokenConfig)
    (h : truthy tk.contractAddress = true ∨ truthy tk.address = true) :
    truthy (normalizeToken tk).contractAddress = true ∧
    (normalizeToken tk).contractAddress
      = (if truthy tk.contractAddress then tk.contractAddress else tk.address) := by
  unfold normalizeToken jsOr
  by_cases hc : truthy tk.contractAddress
  · simp [hc]
  · rcases h with h | h
    · exact absurd h hc
    · simp [hc, h]

theorem validateConfig_canonical_address_witness :
    truthy (normalizeToken
      { contractAddress := some ("0xC"), address := some ("0xB"),
        abi := none, decimals := none }).contractAddress = true ∧
    (normalizeToken
      { contractAddress := some ("0xC"), address := some ("0xB"),
        abi := none, decimals := none }).contractAddress
      = (if truthy (some ("0xC") : Option String) then (some ("0xC") : Option String)
         else some ("0xB")) :=
  validateConfig_canonical_address
    { contractAddress := some ("0xC"), address := some ("0xB"),
      abi := none, decimals := none }
    (Or.inl (by decide))

/-- Claim C5: the decimal count `transferToken` uses follows the
precedence: the explicit per-token configured override when it is a
number, else the on-chain decimals call's result, else 18 when that call
fails. -/
theorem transferToken_decimals_precedence (st : ClientState) (oracle : RpcOracle)
    (network tokenName contractAddress : String) :
    (∀ n : Nat, configTokenDecimals st network tokenName = some (ConfigDecimals.num n) →
      transferTokenDecimals st oracle network tokenName contractAddress = n) ∧
    (∀ d : Nat, isNumberOverride (configTokenDecimals st network tokenName) = false →
      oracle.decimalsResult contractAddress = .ok d →
      transferTokenDecimals st oracle network tokenName contractAddress = d) ∧
    (isNumberOverride (configTokenDecimals st network tokenName) = false →
      oracle.decimalsResult contractAddress = .error () →
      transferTokenDecimals st oracle network tokenName contractAddress = 18) := by
  unfold transferTokenDecimals
  cases hc : configTokenDecimals st network tokenName with
  | none =>
    cases ho : oracle.decimalsResult contractAddress <;>
      simp [isNumberOverride, ho]
  | some dec =>
    cases dec with
    | num n => simp [isNumberOverride]
    | nonNumber =>
      cases ho : oracle.decimalsResult contractAddress <;>
        simp [isNumberOverride, ho]

/-- Claim C6: amount conversion scales by `10 ^ decimals` exactly:
`"5.5"` at 6 decimals yields 5500000, and `"0.0000001"` at 6 decimals is
rejected with `InvalidAmountError` because the scaled amount is not an
exact integer. -/
theorem parseUnits_exact_scaling :
    parseUnits ("5.5") 6 = .ok 5500000 ∧
    parseUnits ("0.0000001") 6 = .error (ClientError.invalidAmount ("0.0000001")) :=
  ⟨rfl, rfl⟩

/-- Claim C8: `getNativeBalance` fails with the not-connected error when no
provider exists for the network, and `getTokenBalance` fails with the
not-found error when no binding exists for the pair; both return an empty
RPC trace, so the failure comes before any RPC call. -/
theorem balance_reads_fail_before_rpc (st : ClientState) (oracle : RpcOracle)
    (network tokenName address : String)
    (h1 : getProvider st network = none)
    (h2 : getContract st network tokenName = none) :
    getNativeBalance st oracle network address = ([], .error (.notConnected network)) ∧
    getTokenBalance st oracle network tokenName address
      = ([], .error (.notFound tokenName network)) := by
  constructor
  · unfold getNativeBalance
    rw [h1]
  · unfold getTokenBalance
    rw [h2]

theorem validateConfig_ok_iff (nets : List (String × Option NetworkConfig)) :
    normIsOk (validateConfig nets) = true ↔ ∀ p ∈ nets, rawNetOk p.2 = true := by
  induction nets with
  | nil => simp [validateConfig, normIsOk]
  | cons p rest ih =>
    obtain ⟨n, onet⟩ := p
    cases onet with
    | none => simp [validateConfig, normIsOk, rawNetOk]
    | some net =>
      cases hurl : net.rpcUrl with
      | none => simp [validateConfig, normIsOk, rawNetOk, hurl]
      | some u =>
        have hok : rawNetOk (some net) = true := by simp [rawNetOk, hurl]
        cases hv : validateConfig rest with
        | error e =>
          have hlhs : validateConfig ((n, some net) :: rest) = .error e := by
            simp [validateConfig, hurl, hv]
          rw [hlhs]
          simp only [normIsOk, Bool.false_eq_true, false_iff]
          intro hall
          have hrest : normIsOk (validateConfig rest) = true :=
            ih.mpr (fun p hp => hall p (List.mem_cons_of_mem _ hp))
          rw [hv] at hrest
          simp [normIsOk] at hrest
        | ok tail =>
          have hlhs : normIsOk (validateConfig ((n, some net) :: rest)) = true := by
            simp [validateConfig, hurl, hv, normIsOk]
          rw [hlhs]
          simp only [true_iff]
          intro p hp
          rcases List.mem_cons.mp hp with hp | hp
          · rw [hp]; exact hok
          · have hrest : normIsOk (validateConfig rest) = true := by
              rw [hv]; rfl
            exact ih.mp hrest p hp

/-- Claim C4, counterexample: a raw config whose single network carries an
`rpcUrl` object with neither endpoint field and whose single token has
neither address field still normalizes successfully, refuting the claimed
failure conditions. -/
theorem normalize_counterexample :
    c4Net.rpcUrl = some { testnet := none, mainnet := none } ∧
    c4Token.contractAddress = none ∧ c4Token.address = none ∧
    normIsOk (normalize (some c4RawConfig)) = true :=
  ⟨rfl, rfl, rfl, rfl⟩

/-- Claim C4, amended: normalization fails exactly when the config or its
`networks` field is absent, or when some network entry is null or lacks
the `rpcUrl` field entirely; a network whose `rpcUrl` object has neither
endpoint field, and a token with neither address field, do not fail it. -/
theorem normalize_fails_iff (config : Option RawConfig) :
    normIsOk (normalize config) = true ↔
      (∃ c, config = some c ∧ ∃ nets, c.networks = some nets ∧
        ∀ p ∈ nets, rawNetOk p.2 = true) := by
  cases config with
  | none => simp [normalize, normIsOk]
  | some c =>
    cases hn : c.networks with
    | none => simp [normalize, normIsOk, hn]
    | some nets =>
      simp only [normalize, hn, validateConfig_ok_iff]
      constructor
      · intro h
        exact ⟨c, rfl, nets, hn, h⟩
      · rintro ⟨c2, hc2, nets2, hn2, h⟩
        cases hc2
        rw [hn] at hn2
        cases hn2
        exact h

theorem digitsVal_foldl_acc (l : List Nat) : ∀ acc : Nat,
    l.foldl (fun a d => a * 10 + d) acc = acc * 10 ^ l.length + digitsVal l := by
  induction l with
  | nil => intro acc; simp [digitsVal]
  | cons d ds ih =>
    intro acc
    have h1 : (d :: ds).foldl (fun a d => a * 10 + d) acc
        = ds.foldl (fun a d => a * 10 + d) (acc * 10 + d) := rfl
    have h2 : digitsVal (d :: ds) = ds.foldl (fun a d => a * 10 + d) d := by
      simp [digitsVal]
    rw [h1, ih, h2, ih d]
    simp [pow_succ]
    ring

theorem digitsVal_cons (d : Nat) (ds : List Nat) :
    digitsVal (d :: ds) = d * 10 ^ ds.length + digitsVal ds := by
  have h : digitsVal (d :: ds) = ds.foldl (fun a d => a * 10 + d) d := by
    simp [digitsVal]
  rw [h, digitsVal_foldl_acc]

theorem digitsVal_append_single (l : List Nat) (d : Nat) :
    digitsVal (l ++ [d]) = digitsVal l * 10 + d := by
  unfold digitsVal
  rw [List.foldl_append]
  rfl

theorem fracDigits_length (d : Nat) : ∀ r : Nat, (fracDigits r d).length = d := by
  induction d with
  | zero => intro r; rfl
  | succ d ih =>
    intro r
    have h : fracDigits r (d + 1) = fracDigits (r / 10) d ++ [r % 10] := rfl
    rw [h]
    simp [ih]

theorem mod_pow_ten_succ (r d : Nat) :
    r % 10 ^ (d + 1) = 10 * (r / 10 % 10 ^ d) + r % 10 := by
  have hp : 0 < (10 : Nat) ^ d := pow_pos (by norm_num) d
  have h1 : r % 10 < 10 := Nat.mod_lt _ (by norm_num)
  have h2 : r / 10 % 10 ^ d < 10 ^ d := Nat.mod_lt _ hp
  have hm : (10 : Nat) ^ (d + 1) = 10 * 10 ^ d := by ring
  rw [hm]
  conv_lhs => rw [← Nat.div_add_mod r 10]
  rw [Nat.add_mod, Nat.mul_mod_mul_left]
  have hb : (r % 10) % (10 * 10 ^ d) = r % 10 :=
    Nat.mod_eq_of_lt (lt_of_lt_of_le h1 (le_mul_of_one_le_right (by norm_num) hp))
  rw [hb]
  apply Nat.mod_eq_of_lt
  have h3 : 10 * (r / 10 % 10 ^ d) + 10 ≤ 10 * 10 ^ d := by
    have := Nat.succ_le_of_lt h2
    calc 10 * (r / 10 % 10 ^ d) + 10 = 10 * (r / 10 % 10 ^ d + 1) := by ring
    _ ≤ 10 * 10 ^ d := Nat.mul_le_mul_left _ this
  omega

theorem digitsVal_nil : digitsVal [] = 0 := rfl

theorem digitsVal_fracDigits (d : Nat) : ∀ r : Nat,
    digitsVal (fracDigits r d) = r % 10 ^ d := by
  induction d with
  | zero => intro r; simp [fracDigits, digitsVal, Nat.mod_one]
  | succ d ih =>
    intro r
    have h : fracDigits r (d + 1) = fracDigits (r / 10) d ++ [r % 10] := rfl
    rw [h, digitsVal_append_single, ih, mod_pow_ten_succ]
    ring

theorem trimTrailingZeros_length_le (l : List Nat) :
    (trimTrailingZeros l).length ≤ l.length := by
  induction l with
  | nil => simp [trimTrailingZeros]
  | cons a as ih =>
    cases h : trimTrailingZeros as with
    | nil =>
      by_cases ha : a = 0 <;> simp [trimTrailingZeros, h, ha]
    | cons b bs =>
      rw [h] at ih
      simp [trimTrailingZeros, h]
      simp at ih
      omega

theorem trimTrailingZeros_val (l : List Nat) :
    digitsVal l
      = digitsVal (trimTrailingZeros l) * 10 ^ (l.length - (trimTrailingZeros l).length) := by
  induction l with
  | nil => simp [trimTrailingZeros, digitsVal]
  | cons a as ih =>
    cases h : trimTrailingZeros as with
    | nil =>
      rw [h, digitsVal_nil, Nat.zero_mul] at ih
      by_cases ha : a = 0
      · subst ha
        have hcons : trimTrailingZeros (0 :: as) = ([] : List Nat) := by
          simp [trimTrailingZeros, h]
        rw [hcons, digitsVal_cons, ih, digitsVal_nil]
        simp
      · have hcons : trimTrailingZeros (a :: as) = [a] := by
          simp [trimTrailingZeros, h, ha]
        rw [hcons, digitsVal_cons, ih]
        have h1 : digitsVal [a] = a := by simp [digitsVal]
        have h2 : (a :: as).length - ([a] : List Nat).length = as.length := by simp
        rw [h1, h2]
        simp
    | cons b bs =>
      have hle : bs.length + 1 ≤ as.length := by
        have hl := trimTrailingZeros_length_le as
        rw [h] at hl
        simpa using hl
      rw [h] at ih
      have hcons : trimTrailingZeros (a :: as) = a :: b :: bs := by
        simp [trimTrailingZeros, h]
      rw [hcons, digitsVal_cons, ih, digitsVal_cons a (b :: bs)]
      simp only [List.length_cons]
      have e1 : as.length + 1 - (bs.length + 1 + 1) = as.length - (bs.length + 1) := by
        omega
      rw [e1]
      have hpow : (10 : Nat) ^ (bs.length + 1) * 10 ^ (as.length - (bs.length + 1))
          = 10 ^ as.length := by
        rw [← pow_add]
        congr 1
        omega
      rw [← hpow]
      ring

theorem formatUnits_round_trip_core (raw d : Nat) :
    raw / 10 ^ d * 10 ^ d
      + digitsVal (displayFracDigits (raw % 10 ^ d) d)
        * 10 ^ (d - (displayFracDigits (raw % 10 ^ d) d).length) = raw := by
  have hp : 0 < (10 : Nat) ^ d := pow_pos (by norm_num) d
  have hrlt : raw % 10 ^ d < 10 ^ d := Nat.mod_lt _ hp
  have hfrac : digitsVal (fracDigits (raw % 10 ^ d) d) = raw % 10 ^ d := by
    rw [digitsVal_fracDigits]
    exact Nat.mod_eq_of_lt hrlt
  have hdm : 10 ^ d * (raw / 10 ^ d) + raw % 10 ^ d = raw := Nat.div_add_mod raw (10 ^ d)
  unfold displayFracDigits
  cases h : trimTrailingZeros (fracDigits (raw % 10 ^ d) d) with
  | nil =>
    have h0 : raw % 10 ^ d = 0 := by
      have hv := trimTrailingZeros_val (fracDigits (raw % 10 ^ d) d)
      rw [h, hfrac] at hv
      simpa [digitsVal] using hv
    have hd0 : digitsVal [0] = 0 := rfl
    rw [hd0]
    rw [h0] at hdm
    simp
    calc raw / 10 ^ d * 10 ^ d = 10 ^ d * (raw / 10 ^ d) := by ring
    _ = raw := by omega
  | cons b bs =>
    have hv := trimTrailingZeros_val (fracDigits (raw % 10 ^ d) d)
    rw [h, hfrac, fracDigits_length] at hv
    rw [← hv]
    calc raw / 10 ^ d * 10 ^ d + raw % 10 ^ d
        = 10 ^ d * (raw / 10 ^ d) + raw % 10 ^ d := by ring
    _ = raw := hdm

/-- Claim C7: balance formatting is exact fixed-point conversion: a raw
balance of 1500000000000000000 at 18 decimals formats to the string
`"1.5"`, a raw balance of 0 formats to `"0.0"`, and in general the digits
`formatUnits` displays reconstruct the raw integer exactly (so no rounding
artifact is possible at any decimal count). -/
theorem formatUnits_exact_fixed_point :
    formatUnits 1500000000000000000 18 = ("1.5") ∧
    formatUnits 0 18 = ("0.0") ∧
    (∀ raw d : Nat,
      raw / 10 ^ d * 10 ^ d
        + digitsVal (displayFracDigits (raw % 10 ^ d) d)
          * 10 ^ (d - (displayFracDigits (raw % 10 ^ d) d).length) = raw) :=
  ⟨rfl, rfl, formatUnits_round_trip_core⟩

theorem balance_reads_fail_before_rpc_witness :
    getNativeBalance emptyState oracle0 ("polygon") ("0xme")
      = ([], .error (.notConnected ("polygon"))) ∧
    getTokenBalance emptyState oracle0 ("polygon") ("USD") ("0xme")
      = ([], .error (.notFound ("USD") ("polygon"))) :=
  balance_reads_fail_before_rpc emptyState oracle0 ("polygon") ("USD") ("0xme") rfl rfl

theorem buildNetContracts_notkey (provs : List (String × String)) (networkName t : String)
    (tokens : List (String × TokenConfig)) :
    ∀ acc : List (String × Contract), t ∉ tokens.map Prod.fst →
      lookupA (buildNetContracts provs networkName tokens acc) t = lookupA acc t := by
  induction tokens with
  | nil => intro acc _; rfl
  | cons p rest ih =>
    obtain ⟨t0, tk0⟩ := p
    intro acc h
    have ht0 : ¬ (t0 = t) := fun hh => h (by simp [hh])
    have hr : t ∉ rest.map Prod.fst := fun hh => h (by simp [hh])
    cases hj : jsOr tk0.contractAddress tk0.address with
    | none =>
      simp only [buildNetContracts, hj]
      exact ih acc hr
    | some a =>
      by_cases ha : a = ("")
      · simp only [buildNetContracts, hj]
        rw [if_pos ha]
        exact ih acc hr
      · simp only [buildNetContracts, hj]
        rw [if_neg ha]
        rw [ih _ hr]
        exact lookupA_setA_ne _ _ _ _ (fun hh => ht0 hh.symm)

theorem buildNetContracts_skip (provs : List (String × String)) (networkName t : String)
    (tk : TokenConfig) (tokens : List (String × TokenConfig)) :
    ∀ acc : List (String × Contract), (tokens.map Prod.fst).Nodup →
      lookupA tokens t = some tk →
      truthy (jsOr tk.contractAddress tk.address) = false →
      lookupA (buildNetContracts provs networkName tokens acc) t = lookupA acc t := by
  induction tokens with
  | nil => intro acc _ hl _; simp [lookupA] at hl
  | cons p rest ih =>
    obtain ⟨t0, tk0⟩ := p
    intro acc hnd hl hfalse
    simp only [List.map_cons] at hnd
    obtain ⟨hnotin, hndr⟩ := List.nodup_cons.mp hnd
    by_cases ht0 : t0 = t
    · subst ht0
      have htk : tk0 = tk := by
        simp [lookupA] at hl
        exact hl
      subst htk
      cases hj : jsOr tk0.contractAddress tk0.address with
      | none =>
        simp only [buildNetContracts, hj]
        exact buildNetContracts_notkey provs networkName t0 rest acc hnotin
      | some a =>
        have ha : a = ("") := by
          rw [hj] at hfalse
          simpa [truthy] using hfalse
        simp only [buildNetContracts, hj]
        rw [if_pos ha]
        exact buildNetContracts_notkey provs networkName t0 rest acc hnotin
    · have hl2 : lookupA rest t = some tk := by
        simp [lookupA, ht0] at hl
        exact hl
      cases hj : jsOr tk0.contractAddress tk0.address with
      | none =>
        simp only [buildNetContracts, hj]
        exact ih acc hndr hl2 hfalse
      | some a =>
        by_cases ha : a = ("")
        · simp only [buildNetContracts, hj]
          rw [if_pos ha]
          exact ih acc hndr hl2 hfalse
        · simp only [buildNetContracts, hj]
          rw [if_neg ha]
          rw [ih _ hndr hl2 hfalse]
          exact lookupA_setA_ne _ _ _ _ (fun hh => ht0 hh.symm)

theorem buildContracts_notkey (provs : List (String × String)) (n : String)
    (nets : List (String × NetworkConfig)) :
    ∀ cmap : List (String × List (String × Contract)), n ∉ nets.map Prod.fst →
      lookupA (buildContracts provs nets cmap) n = lookupA cmap n := by
  induction nets with
  | nil => intro cmap _; rfl
  | cons p rest ih =>
    obtain ⟨n0, net0⟩ := p
    intro cmap h
    have hn0 : ¬ (n0 = n) := fun hh => h (by simp [hh])
    have hr : n ∉ rest.map Prod.fst := fun hh => h (by simp [hh])
    simp only [buildContracts]
    rw [ih _ hr]
    exact lookupA_setA_ne _ _ _ _ (fun hh => hn0 hh.symm)

theorem buildContracts_found (provs : List (String × String)) (n : String)
    (net : NetworkConfig) (nets : List (String × NetworkConfig)) :
    ∀ cmap : List (String × List (String × Contract)), (nets.map Prod.fst).Nodup →
      lookupA nets n = some net → lookupA cmap n = none →
      lookupA (buildContracts provs nets cmap) n
        = some (buildNetContracts provs n ((net.tokens).getD []) []) := by
  induction nets with
  | nil => intro cmap _ hln _; simp [lookupA] at hln
  | cons p rest ih =>
    obtain ⟨n0, net0⟩ := p
    intro cmap hnd hln hcm
    simp only [List.map_cons] at hnd
    obtain ⟨hnotin, hndr⟩ := List.nodup_cons.mp hnd
    by_cases h0 : n0 = n
    · subst h0
      have hnet : net0 = net := by
        simp [lookupA] at hln
        exact hln
      subst hnet
      simp only [buildContracts]
      rw [buildContracts_notkey provs n0 rest _ hnotin]
      rw [lookupA_setA_self, hcm]
      rfl
    · have hln2 : lookupA rest n = some net := by
        simp [lookupA, h0] at hln
        exact hln
      simp only [buildContracts]
      apply ih _ hndr hln2
      rw [lookupA_setA_ne _ _ _ _ (fun hh => h0 hh.symm)]
      exact hcm

theorem connectNetworks_preserves (st : ClientState) :
    (connectNetworks st).1.config = st.config ∧
    (connectNetworks st).1.contracts = st.contracts := by
  unfold connectNetworks
  cases haux : connectNetworksAux st.config st.providers with
  | mk provs oe => cases oe <;> simp

theorem loadContracts_cases (st : ClientState) :
    (st.providers.isEmpty = false →
      loadContracts st
        = ({ st with contracts := buildContracts st.providers st.config st.contracts },
           .ok true)) ∧
    (st.providers.isEmpty = true → ∀ st2 e, connectNetworks st = (st2, .error e) →
      loadContracts st = (st2, .error e)) ∧
    (st.providers.isEmpty = true → ∀ st2 b, connectNetworks st = (st2, .ok b) →
      loadContracts st
        = ({ st2 with contracts := buildContracts st2.providers st2.config st2.contracts },
           .ok true)) := by
  refine ⟨?_, ?_, ?_⟩
  · intro h
    unfold loadContracts
    rw [h]
    rfl
  · intro h st2 e hcn
    unfold loadContracts
    rw [h, hcn]
    rfl
  · intro h st2 b hcn
    unfold loadContracts
    rw [h, hcn]
    rfl

/-- Claim C9: during `loadContracts`, every (network, token) pair whose
token has no truthy canonical address is skipped (no binding is stored for
it), the call still returns `true` when connections already exist, and
when no connections exist yet the call first runs `connectNetworks`
(the resulting provider map is exactly the one `connectNetworks` builds,
including the failure case, where the error propagates). -/
theorem loadContracts_skips_unresolvable (st : ClientState)
    (hc : st.contracts = [])
    (hnet : (st.config.map Prod.fst).Nodup)
    (htok : ∀ p ∈ st.config, (((p.2.tokens).getD []).map Prod.fst).Nodup) :
    (st.providers ≠ [] → (loadContracts st).2 = .ok true) ∧
    (∀ network net tokenName tk,
      lookupA st.config network = some net →
      lookupA ((net.tokens).getD []) tokenName = some tk →
      truthy (jsOr tk.contractAddress tk.address) = false →
      getContract (loadContracts st).1 network tokenName = none) ∧
    (st.providers = [] → (loadContracts st).1.providers = (connectNetworks st).1.providers) := by
  have hskip : ∀ (provs : List (String × String)) (network : String) (net : NetworkConfig)
      (tokenName : String) (tk : TokenConfig),
      lookupA st.config network = some net →
      lookupA ((net.tokens).getD []) tokenName = some tk →
      truthy (jsOr tk.contractAddress tk.address) = false →
      (lookupA (buildContracts provs st.config []) network).bind
        (fun m => lookupA m tokenName) = none := by
    intro provs network net tokenName tk hln hlt hf
    rw [buildContracts_found provs network net st.config [] hnet hln rfl]
    have hndtok : (((net.tokens).getD []).map Prod.fst).Nodup :=
      htok (network, net) (lookupA_mem _ _ _ hln)
    simp only [Option.bind]
    rw [buildNetContracts_skip provs network tokenName tk _ [] hndtok hlt hf]
    rfl
  refine ⟨?_, ?_, ?_⟩
  · intro hne
    have hemp : st.providers.isEmpty = false := by
      cases hpv : st.providers with
      | nil => exact absurd hpv hne
      | cons p0 ps => rfl
    rw [(loadContracts_cases st).1 hemp]
  · intro network net tokenName tk hln hlt hf
    by_cases hemp : st.providers.isEmpty = true
    · cases hcn : connectNetworks st with
      | mk st2 r =>
        have hc2a : st2.config = st.config := ((connectNetworks_preserves st).1 :)
          |> fun hh => by rw [hcn] at hh; exact hh
        have hc2b : st2.contracts = st.contracts := ((connectNetworks_preserves st).2 :)
          |> fun hh => by rw [hcn] at hh; exact hh
        cases r with
        | error e =>
          have hl : loadContracts st = (st2, .error e) :=
            (loadContracts_cases st).2.1 hemp st2 e hcn
          unfold getContract
          rw [hl]
          show (lookupA st2.contracts network).bind (fun m => lookupA m tokenName) = none
          rw [hc2b, hc]
          rfl
        | ok b =>
          have hl : loadContracts st
              = ({ st2 with
                    contracts := buildContracts st2.providers st2.config st2.contracts },
                 .ok true) :=
            (loadContracts_cases st).2.2 hemp st2 b hcn
          unfold getContract
          rw [hl]
          show (lookupA (buildContracts st2.providers st2.config st2.contracts)
            network).bind (fun m => lookupA m tokenName) = none
          rw [hc2a, hc2b, hc]
          exact hskip st2.providers network net tokenName tk hln hlt hf
    · have hemp2 : st.providers.isEmpty = false := by
        cases hh : st.providers.isEmpty with
        | false => rfl
        | true => exact absurd hh hemp
      have hl := (loadContracts_cases st).1 hemp2
      unfold getContract
      rw [hl]
      show (lookupA (buildContracts st.providers st.config st.contracts)
        network).bind (fun m => lookupA m tokenName) = none
      rw [hc]
      exact hskip st.providers network net tokenName tk hln hlt hf
  · intro hpv
    have hemp : st.providers.isEmpty = true := by rw [hpv]; rfl
    cases hcn : connectNetworks st with
    | mk st2 r =>
      cases r with
      | error e =>
        rw [(loadContracts_cases st).2.1 hemp st2 e hcn]
      | ok b =>
        rw [(loadContracts_cases st).2.2 hemp st2 b hcn]

theorem loadContracts_skips_unresolvable_witness :
    getContract (loadContracts stSkip).1 ("celo") ("BAD") = none :=
  (loadContracts_skips_unresolvable stSkip rfl (by decide) (by decide)).2.1
    ("celo") netSkip ("BAD") tkBad rfl rfl rfl

theorem connectNetworksAux_pre (nb : String) (netb : NetworkConfig)
    (rest : List (String × NetworkConfig)) (e : ClientError)
    (hbad : resolveRpcUrl netb = .error e)
    (pre : List (String × NetworkConfig)) :
    ∀ provs : List (String × String),
      (∀ p ∈ pre, exceptIsOk (resolveRpcUrl p.2) = true) →
      connectNetworksAux (pre ++ (nb, netb) :: rest) provs
        = ((connectNetworksAux pre provs).1, some e) := by
  induction pre with
  | nil =>
    intro provs _
    simp only [List.nil_append, connectNetworksAux, hbad]
  | cons p pre ih =>
    obtain ⟨n0, net0⟩ := p
    intro provs hpre
    have h0 : exceptIsOk (resolveRpcUrl net0) = true := hpre _ (List.mem_cons_self _ _)
    cases hr : resolveRpcUrl net0 with
    | error e0 =>
      rw [hr] at h0
      simp [exceptIsOk] at h0
    | ok url =>
      simp only [List.cons_append, connectNetworksAux, hr]
      exact ih (setA provs n0 url) (fun p hp => hpre p (List.mem_cons_of_mem _ hp))

theorem connectNetworksAux_keeps (k : String) (nets : List (String × NetworkConfig)) :
    ∀ provs : List (String × String),
      (lookupA provs k).isSome = true →
      (lookupA (connectNetworksAux nets provs).1 k).isSome = true := by
  induction nets with
  | nil => intro provs h; exact h
  | cons p rest ih =>
    obtain ⟨n0, net0⟩ := p
    intro provs h
    cases hr : resolveRpcUrl net0 with
    | error e =>
      simp only [connectNetworksAux, hr]
      exact h
    | ok url =>
      simp only [connectNetworksAux, hr]
      exact ih _ (lookupA_setA_isSome _ _ _ _ h)

theorem connectNetworksAux_stores (k : String) (pre : List (String × NetworkConfig)) :
    ∀ provs : List (String × String),
      (∀ p ∈ pre, exceptIsOk (resolveRpcUrl p.2) = true) →
      k ∈ pre.map Prod.fst →
      (lookupA (connectNetworksAux pre provs).1 k).isSome = true := by
  induction pre with
  | nil => intro provs _ h; simp at h
  | cons p rest ih =>
    obtain ⟨n0, net0⟩ := p
    intro provs hpre hk
    have h0 : exceptIsOk (resolveRpcUrl net0) = true := hpre _ (List.mem_cons_self _ _)
    cases hr : resolveRpcUrl net0 with
    | error e0 =>
      rw [hr] at h0
      simp [exceptIsOk] at h0
    | ok url =>
      simp only [connectNetworksAux, hr]
      simp only [List.map_cons, List.mem_cons] at hk
      rcases hk with hk0 | hk0
      · apply connectNetworksAux_keeps
        rw [hk0, lookupA_setA_self]
        rfl
      · exact ih _ (fun p hp => hpre p (List.mem_cons_of_mem _ hp)) hk0

/-- Claim C10: `connectNetworks` is not atomic on failure: when endpoint
resolution fails for a network, the call fails with that error, but the
providers created for the networks iterated earlier in the same call
remain stored in the registry. -/
theorem connectNetworks_not_atomic (st : ClientState)
    (pre rest : List (String × NetworkConfig)) (nb : String) (netb : NetworkConfig)
    (e : ClientError)
    (hcfg : st.config = pre ++ (nb, netb) :: rest)
    (hpre : ∀ p ∈ pre, exceptIsOk (resolveRpcUrl p.2) = true)
    (hbad : resolveRpcUrl netb = .error e) :
    (connectNetworks st).2 = .error e ∧
    (connectNetworks st).1.providers = (connectNetworksAux pre st.providers).1 ∧
    (∀ p ∈ pre, (lookupA (connectNetworks st).1.providers p.1).isSome = true) := by
  have haux := connectNetworksAux_pre nb netb rest e hbad pre st.providers hpre
  unfold connectNetworks
  rw [hcfg, haux]
  refine ⟨rfl, rfl, ?_⟩
  intro p hp
  exact connectNetworksAux_stores p.1 pre st.providers hpre
    (List.mem_map_of_mem _ hp)

/-- Claim C1, counterexample: in the end-to-end scenario (one network with
environment 0 and a testnet endpoint set, one token with an explicit
decimals override of 18), after `connectNetworks()` and `loadContracts()`,
`getTokenBalance` still issues one decimals-read call on the binding, so
the claimed zero decimals-reads is false. -/
theorem getTokenBalance_counterexample :
    c1PipelineOk = true ∧
    c1Trace.count (RpcCall.decimalsCall ("0xA")) = 1 ∧
    c1Trace.count (RpcCall.balanceOf ("0xA") ("0xme")) = 1 := by
  decide

/-- Claim C1, amended: after `connectNetworks()` and `loadContracts()`,
whenever a binding exists, `getTokenBalance` issues exactly one
balance-read call and exactly one decimals-read call on it — the explicit
per-token decimals override is ignored by `getTokenBalance` (the override
only short-circuits the lookup in `transferToken`). -/
theorem getTokenBalance_trace (st : ClientState) (oracle : RpcOracle)
    (network tokenName address : String) (c : Contract)
    (h : getContract st network tokenName = some c) :
    (getTokenBalance st oracle network tokenName address).1
      = [RpcCall.balanceOf c.address address, RpcCall.decimalsCall c.address] ∧
    (getTokenBalance st oracle network tokenName address).1.count
      (RpcCall.balanceOf c.address address) = 1 ∧
    (getTokenBalance st oracle network tokenName address).1.count
      (RpcCall.decimalsCall c.address) = 1 := by
  have ht : (getTokenBalance st oracle network tokenName address).1
      = [RpcCall.balanceOf c.address address, RpcCall.decimalsCall c.address] := by
    unfold getTokenBalance
    rw [h]
  refine ⟨ht, ?_, ?_⟩ <;> rw [ht] <;> simp [List.count_cons]

theorem getTokenBalance_trace_witness :
    (getTokenBalance c1State oracle0 ("celo") ("USD") ("0xme")).1
      = [RpcCall.balanceOf ("0xA") ("0xme"), RpcCall.decimalsCall ("0xA")] ∧
    (getTokenBalance c1State oracle0 ("celo") ("USD") ("0xme")).1.count
      (RpcCall.balanceOf ("0xA") ("0xme")) = 1 ∧
    (getTokenBalance c1State oracle0 ("celo") ("USD") ("0xme")).1.count
      (RpcCall.decimalsCall ("0xA")) = 1 :=
  getTokenBalance_trace c1State oracle0 ("celo") ("USD") ("0xme")
    { address := ("0xA"), abi := ERC20_ABI, provider := some ("https://t") } rfl

theorem connectNetworks_not_atomic_witness :
    (connectNetworks stPartial).2
      = .error (.configError ("Missing rpcUrl for network (check testnet/mainnet keys)")) ∧
    (connectNetworks stPartial).1.providers
      = (connectNetworksAux [(("good"), netGood)] stPartial.providers).1 ∧
    (∀ p ∈ [(("good"), netGood)],
      (lookupA (connectNetworks stPartial).1.providers p.1).isSome = true) :=
  connectNetworks_not_atomic stPartial [(("good"), netGood)] [] ("bad") netBad
    (.configError ("Missing rpcUrl for network (check testnet/mainnet keys)"))
    rfl (by decide) rfl

end Oathstone
